import Mathlib

/-!
Shallow embedding of `binance-oco.js`: the OCO order-lifecycle controller
and market-event reactor. BigNumber arithmetic (exact decimal plus, minus,
times and comparisons) is modelled by `ℚ`; optional CLI prices that the
source tests for truthiness as BigNumber objects are modelled by `Option ℚ`
(`none` = not supplied). Order ids are `Nat` with `0` meaning "no order
outstanding", exactly as in the source. Asynchronous exchange calls are
modelled as emitted actions; each callback in the source becomes its own
response-handler function on the state.
-/

namespace BinanceOco

/-- Immutable trade intent after normalization (the munged CLI parameters
captured by the closures in `binance-oco.js`). -/
structure Config where
  amount : ℚ
  buyPrice : Option ℚ
  buyLimitPrice : Option ℚ
  stopPrice : Option ℚ
  limitPrice : Option ℚ
  targetPrice : Option ℚ
  cancelPrice : Option ℚ
  nonBnbFees : Bool
  deriving Repr, DecidableEq

/-- Mutable controller state: the `let` variables of the source
(`buyOrderId`, `stopOrderId`, `targetOrderId`, `stopSellAmount`,
`targetSellAmount`, `isCancelling`, `isStopEntry`, `isLimitEntry`). -/
structure OcoState where
  buyOrderId : Nat
  stopOrderId : Nat
  targetOrderId : Nat
  stopSellAmount : ℚ
  targetSellAmount : ℚ
  isCancelling : Bool
  isStopEntry : Bool
  isLimitEntry : Bool
  deriving Repr, DecidableEq

/-- Which order a cancel request was issued for (determined by which
`binance.cancel` call site issued it). -/
inductive Role where
  | entry
  | stop
  | target
  deriving Repr, DecidableEq

/-- Order types appearing in `binance.sell` responses. -/
inductive SellType where
  | stopLossLimit
  | limit
  | market
  deriving Repr, DecidableEq

/-- Execution-report order statuses from the user-data stream. -/
inductive OrderStatus where
  | NEW
  | PARTIALLY_FILLED
  | FILLED
  | CANCELED
  | REJECTED
  | EXPIRED
  deriving Repr, DecidableEq

/-- Outbound commands the controller issues toward the exchange or the
host process. `recalc` records an invocation of
`calculateStopAndTargetAmounts` (the fee recalculation). -/
inductive Action where
  | cancelOrder (orderId : Nat) (role : Role)
  | placeStop (qty : ℚ)
  | placeTarget (qty : ℚ)
  | marketBuy (qty : ℚ)
  | stopLimitBuy (qty : ℚ) (limit : ℚ) (trigger : ℚ)
  | limitBuy (qty : ℚ) (price : ℚ)
  | exitProcess (code : Nat)
  | recalc (commissionAsset : String)
  deriving Repr, DecidableEq

/-- Fixed constant `NON_BNB_TRADING_FEE = 0.001`. -/
def NON_BNB_TRADING_FEE : ℚ := 1 / 1000

/-- Translation of `calculateSellAmount`: the sell amount is unchanged when
the commission was paid in BNB and the user did not opt out, otherwise it
is multiplied by `1 - 0.001`. -/
def calculateSellAmount (nonBnbFees : Bool) (commissionAsset : String) (sellAmount : ℚ) : ℚ :=
  if commissionAsset = "BNB" && !nonBnbFees then sellAmount
  else sellAmount * (1 - NON_BNB_TRADING_FEE)

/-- Translation of `calculateStopAndTargetAmounts`: applies
`calculateSellAmount` to both pending sell quantities. -/
def calculateStopAndTargetAmounts (nonBnbFees : Bool) (commissionAsset : String)
    (s : OcoState) : OcoState :=
  { s with
    stopSellAmount := calculateSellAmount nonBnbFees commissionAsset s.stopSellAmount
    targetSellAmount := calculateSellAmount nonBnbFees commissionAsset s.targetSellAmount }

/-- Translation of `placeStopOrder`: issues a STOP_LOSS_LIMIT sell for the
current `stopSellAmount` (price fixed by the config; `sellComplete` handles
the response later). -/
def placeStopOrder (s : OcoState) : List Action :=
  [Action.placeStop s.stopSellAmount]

/-- Translation of `placeTargetOrder`: issues a LIMIT sell for
`targetSellAmount`, then, if a stop price exists and the two sell amounts
differ (scale-out case), reduces `stopSellAmount` by `targetSellAmount` and
re-places the stop order. -/
def placeTargetOrder (cfg : Config) (s : OcoState) : OcoState × List Action :=
  if cfg.stopPrice.isSome && s.targetSellAmount ≠ s.stopSellAmount then
    let s' := { s with stopSellAmount := s.stopSellAmount - s.targetSellAmount }
    (s', [Action.placeTarget s.targetSellAmount] ++ placeStopOrder s')
  else
    (s, [Action.placeTarget s.targetSellAmount])

/-- Translation of `placeSellOrder`: stop order if a stop price is set,
else target order if a target price is set, else exit. -/
def placeSellOrder (cfg : Config) (s : OcoState) : OcoState × List Action :=
  if cfg.stopPrice.isSome then
    (s, placeStopOrder s)
  else if cfg.targetPrice.isSome then
    placeTargetOrder cfg s
  else
    (s, [Action.exitProcess 0])

/-- Translation of `sellComplete`: on error exit(1); if not both a stop and
a target price were requested, exit immediately without recording the order
id; otherwise record the id as `stopOrderId` or `targetOrderId` according
to the response's order type. -/
def sellComplete (cfg : Config) (s : OcoState) (err : Bool) (orderId : Nat)
    (ty : SellType) : OcoState × List Action :=
  if err then
    (s, [Action.exitProcess 1])
  else if !(cfg.stopPrice.isSome && cfg.targetPrice.isSome) then
    (s, [Action.exitProcess 0])
  else
    match ty with
    | SellType.stopLossLimit => ({ s with stopOrderId := orderId }, [])
    | SellType.limit => ({ s with targetOrderId := orderId }, [])
    | SellType.market => (s, [])

/-- Translation of `buyComplete`: on error exit(1); on a FILLED response
run the fee recalculation with the fill's commission asset and place the
sell side; otherwise record the order id as `buyOrderId`. -/
def buyComplete (cfg : Config) (s : OcoState) (err : Bool) (orderId : Nat)
    (status : OrderStatus) (commissionAsset : String) : OcoState × List Action :=
  if err then
    (s, [Action.exitProcess 1])
  else if status = OrderStatus.FILLED then
    let s1 := calculateStopAndTargetAmounts cfg.nonBnbFees commissionAsset s
    let r := placeSellOrder cfg s1
    (r.1, Action.recalc commissionAsset :: r.2)
  else
    ({ s with buyOrderId := orderId }, [])

/-- Descriptive result of the one-shot entry decision. -/
inductive EntryChoice where
  | sellDirect
  | marketBuyEntry (qty : ℚ)
  | stopLimitBuyEntry (qty : ℚ) (limit : ℚ) (trigger : ℚ)
  | limitBuyEntry (qty : ℚ) (price : ℚ)
  deriving Repr, DecidableEq

/-- Result of the entry dispatch: the chosen order together with the
`isStopEntry` / `isLimitEntry` flags set by the source. -/
structure EntryResult where
  choice : EntryChoice
  isStopEntry : Bool
  isLimitEntry : Bool
  deriving Repr, DecidableEq

/-- Translation of the entry dispatch (`binance.marketBuy` /
`binance.prices` callback / direct `placeSellOrder`): buyPrice absent or
negative falls through to direct sell placement; buyPrice zero is a market
buy; otherwise the single current-price snapshot decides between a
stop-limit buy (buyPrice strictly above the market) and a plain limit buy. -/
def entryDecision (cfg : Config) (currentPrice : ℚ) : EntryResult :=
  match cfg.buyPrice with
  | none => ⟨EntryChoice.sellDirect, false, false⟩
  | some b =>
    if b = 0 then
      ⟨EntryChoice.marketBuyEntry cfg.amount, false, false⟩
    else if 0 < b then
      if currentPrice < b then
        ⟨EntryChoice.stopLimitBuyEntry cfg.amount (cfg.buyLimitPrice.getD b) b, true, false⟩
      else
        ⟨EntryChoice.limitBuyEntry cfg.amount b, false, true⟩
    else
      ⟨EntryChoice.sellDirect, false, false⟩

/-- BigNumber comparison `price.isGreaterThanOrEqualTo(q)` where `q` may be
absent: a comparison against `undefined` yields NaN and is false. -/
def geOpt (price : ℚ) (q : Option ℚ) : Bool :=
  match q with
  | some v => v ≤ price
  | none => false

/-- BigNumber comparison `price.isLessThanOrEqualTo(q)` where `q` may be
absent: a comparison against `undefined` yields NaN and is false. -/
def leOpt (price : ℚ) (q : Option ℚ) : Bool :=
  match q with
  | some v => price ≤ v
  | none => false

/-- Translation of the `binance.websockets.trades` handler: while the entry
order is outstanding, the pre-fill cancel trigger; otherwise, while exactly
one sell leg is outstanding, the post-fill cancel triggers. Issuing a
cancel sets `isCancelling`; the emitted action carries the role whose
callback will handle the response. -/
def tickStep (cfg : Config) (s : OcoState) (price : ℚ) : OcoState × List Action :=
  if s.buyOrderId ≠ 0 then
    match cfg.cancelPrice with
    | none => (s, [])
    | some c =>
      if ((s.isStopEntry && price ≤ c) || (s.isLimitEntry && c ≤ price)) && !s.isCancelling then
        ({ s with isCancelling := true }, [Action.cancelOrder s.buyOrderId Role.entry])
      else
        (s, [])
  else if s.stopOrderId ≠ 0 || s.targetOrderId ≠ 0 then
    if s.stopOrderId ≠ 0 && s.targetOrderId = 0 && geOpt price cfg.targetPrice
        && !s.isCancelling then
      ({ s with isCancelling := true }, [Action.cancelOrder s.stopOrderId Role.stop])
    else if s.targetOrderId ≠ 0 && s.stopOrderId = 0 && leOpt price cfg.stopPrice
        && !s.isCancelling then
      ({ s with isCancelling := true }, [Action.cancelOrder s.targetOrderId Role.target])
    else
      (s, [])
  else
    (s, [])

/-- Translation of the three `binance.cancel` callbacks. Each first clears
`isCancelling`; on error it only logs and returns. On success: the entry
cancel exits the process; the stop cancel zeroes `stopOrderId` and places
the target order; the target cancel zeroes `targetOrderId`, merges
`targetSellAmount` back into `stopSellAmount` when the two amounts differ,
and re-places the stop order. -/
def cancelResponse (cfg : Config) (role : Role) (err : Bool) (s : OcoState) :
    OcoState × List Action :=
  let s0 := { s with isCancelling := false }
  if err then
    (s0, [])
  else
    match role with
    | Role.entry => (s0, [Action.exitProcess 0])
    | Role.stop =>
      let s1 := { s0 with stopOrderId := 0 }
      placeTargetOrder cfg s1
    | Role.target =>
      let s1 := { s0 with targetOrderId := 0 }
      let s2 :=
        if s1.targetSellAmount ≠ s1.stopSellAmount then
          { s1 with stopSellAmount := s1.stopSellAmount + s1.targetSellAmount }
        else
          s1
      (s2, placeStopOrder s2)

/-- Three-way classification computed by `checkOrderFilled`. -/
inductive StatusClass where
  | ignore
  | fatal
  | filled
  deriving Repr, DecidableEq

/-- Translation of the status checks in `checkOrderFilled`: NEW and
PARTIALLY_FILLED return without action; any other non-FILLED status exits
the process with code 1; FILLED invokes the `orderFilled` continuation. -/
def statusClass (status : OrderStatus) : StatusClass :=
  if status = OrderStatus.NEW ∨ status = OrderStatus.PARTIALLY_FILLED then
    StatusClass.ignore
  else if status ≠ OrderStatus.FILLED then
    StatusClass.fatal
  else
    StatusClass.filled

/-- An execution report from the user-data stream. -/
structure ExecReport where
  orderId : Nat
  status : OrderStatus
  commissionAsset : String
  deriving Repr, DecidableEq

/-- Translation of the `binance.websockets.userData` handler: route the
report by order id (entry, then stop, then target), apply
`checkOrderFilled`, and on a full fill run the owning role's continuation
(entry: zero `buyOrderId`, recalculate the sell amounts with the reported
commission asset, place the sell side; stop or target: exit). -/
def userDataStep (cfg : Config) (s : OcoState) (evt : ExecReport) : OcoState × List Action :=
  if evt.orderId = s.buyOrderId then
    match statusClass evt.status with
    | StatusClass.ignore => (s, [])
    | StatusClass.fatal => (s, [Action.exitProcess 1])
    | StatusClass.filled =>
      let s1 := { s with buyOrderId := 0 }
      let s2 := calculateStopAndTargetAmounts cfg.nonBnbFees evt.commissionAsset s1
      let r := placeSellOrder cfg s2
      (r.1, Action.recalc evt.commissionAsset :: r.2)
  else if evt.orderId = s.stopOrderId then
    match statusClass evt.status with
    | StatusClass.ignore => (s, [])
    | StatusClass.fatal => (s, [Action.exitProcess 1])
    | StatusClass.filled => (s, [Action.exitProcess 0])
  else if evt.orderId = s.targetOrderId then
    match statusClass evt.status with
    | StatusClass.ignore => (s, [])
    | StatusClass.fatal => (s, [Action.exitProcess 1])
    | StatusClass.filled => (s, [Action.exitProcess 0])
  else
    (s, [])

/-- Events the reactor can deliver after startup: price ticks, execution
reports, cancel-request responses and sell-placement responses. -/
inductive Event where
  | tick (price : ℚ)
  | execReport (orderId : Nat) (status : OrderStatus) (commissionAsset : String)
  | cancelResp (role : Role) (err : Bool)
  | sellResp (err : Bool) (orderId : Nat) (ty : SellType)
  deriving Repr, DecidableEq

/-- One reactor step: dispatch an event to its handler. -/
def step (cfg : Config) (s : OcoState) (e : Event) : OcoState × List Action :=
  match e with
  | Event.tick p => tickStep cfg s p
  | Event.execReport id st asset => userDataStep cfg s ⟨id, st, asset⟩
  | Event.cancelResp r err => cancelResponse cfg r err s
  | Event.sellResp err id ty => sellComplete cfg s err id ty

/-- Run the reactor over a sequence of delivered events, collecting all
emitted actions. -/
def run (cfg : Config) (s : OcoState) : List Event → OcoState × List Action
  | [] => (s, [])
  | e :: rest =>
    let r := step cfg s e
    let r' := run cfg r.1 rest
    (r'.1, r.2 ++ r'.2)

/-- Number of fee-recalculation invocations recorded in an action list. -/
def recalcCount (acts : List Action) : Nat :=
  acts.countP fun a =>
    match a with
    | Action.recalc _ => true
    | _ => false

/-- Exchange LOT_SIZE conformance rule for quantities. -/
structure LotRules where
  stepSize : ℚ
  minQty : ℚ
  deriving Repr, DecidableEq

/-- Failure result of a conformance check (the source prints an error and
exits the process). -/
inductive ConformanceError where
  | belowMinQty
  deriving Repr, DecidableEq

/-- Modelled from the spec: `binance.roundStep` belongs to the external
`node-binance-api` library and is absent from `src/`; per the spec it
rounds a raw quantity down to the nearest multiple of `stepSize`. -/
def roundStep (volume stepSize : ℚ) : ℚ :=
  stepSize * (⌊volume / stepSize⌋ : ℤ)

/-- Translation of `munge_and_check_quantity`: round the volume with
`roundStep` and fail when the result is below `minQty`. -/
def munge_and_check_quantity (rules : LotRules) (volume : ℚ) :
    Except ConformanceError ℚ :=
  let v := roundStep volume rules.stepSize
  if v < rules.minQty then Except.error ConformanceError.belowMinQty
  else Except.ok v

end BinanceOco

namespace BinanceOco

section Theorems

/-- C5: the entry decision, against a single current-price snapshot, is:
no buyPrice ⇒ direct sell-side placement; buyPrice = 0 ⇒ market buy for
`amount`; buyPrice above the snapshot ⇒ stop-limit buy with buyPrice as
trigger and buyLimitPrice (or buyPrice) as limit, `isStopEntry` set;
buyPrice below the snapshot ⇒ plain limit buy at buyPrice, `isLimitEntry`
set. -/
theorem entry_decision_cases (cfg : Config) (p : ℚ) :
    (cfg.buyPrice = none →
      entryDecision cfg p = ⟨EntryChoice.sellDirect, false, false⟩) ∧
    (cfg.buyPrice = some 0 →
      entryDecision cfg p = ⟨EntryChoice.marketBuyEntry cfg.amount, false, false⟩) ∧
    (∀ b : ℚ, cfg.buyPrice = some b → 0 < b → p < b →
      entryDecision cfg p =
        ⟨EntryChoice.stopLimitBuyEntry cfg.amount (cfg.buyLimitPrice.getD b) b, true, false⟩) ∧
    (∀ b : ℚ, cfg.buyPrice = some b → 0 < b → b < p →
      entryDecision cfg p = ⟨EntryChoice.limitBuyEntry cfg.amount b, false, true⟩) := by
  refine ⟨fun h => ?_, fun h => ?_, fun b hb hpos hlt => ?_, fun b hb hpos hlt => ?_⟩
  · simp [entryDecision, h]
  · simp [entryDecision, h]
  · simp [entryDecision, hb, hpos.ne', hpos, hlt]
  · simp [entryDecision, hb, hpos.ne', hpos, not_lt.mpr hlt.le]

/-- Witness for C5: with buyPrice 2 above the snapshot price 1, the stop-limit
entry is chosen with trigger 2 and limit 3. -/
theorem entry_decision_cases_witness :
    entryDecision ⟨5, some 2, some 3, none, none, none, none, false⟩ 1 =
      ⟨EntryChoice.stopLimitBuyEntry 5 3 2, true, false⟩ :=
  (entry_decision_cases ⟨5, some 2, some 3, none, none, none, none, false⟩ 1).2.2.1
    2 rfl (by norm_num) (by norm_num)

/-- C10: with a positive buyPrice exactly equal to the current price
snapshot, the plain limit branch is chosen with `isLimitEntry` set; the
stop-entry branch requires the buyPrice to be strictly above the
snapshot. -/
theorem entry_equal_price_limit (cfg : Config) (p b : ℚ)
    (hb : cfg.buyPrice = some b) (hpos : 0 < b) :
    (b = p → entryDecision cfg p = ⟨EntryChoice.limitBuyEntry cfg.amount b, false, true⟩) ∧
    ((entryDecision cfg p).isStopEntry = true → p < b) := by
  constructor
  · intro he
    subst he
    simp [entryDecision, hb, hpos.ne', hpos]
  · intro hstop
    by_cases hpb : p < b
    · exact hpb
    · exfalso
      revert hstop
      simp [entryDecision, hb, hpos.ne', hpos, hpb]

/-- Witness for C10: buyPrice 2 equal to the snapshot chooses the limit
entry. -/
theorem entry_equal_price_limit_witness :
    entryDecision ⟨5, some 2, none, none, none, none, none, false⟩ 2 =
      ⟨EntryChoice.limitBuyEntry 5 2, false, true⟩ :=
  (entry_equal_price_limit ⟨5, some 2, none, none, none, none, none, false⟩ 2 2
    rfl (by norm_num)).1 rfl

/-- C9: when at most one of stopPrice and targetPrice is set, a successful
sell-placement response exits immediately without recording the order id;
and any change of `stopOrderId` or `targetOrderId` by `sellComplete`
requires both prices to be set. -/
theorem single_leg_sell_exit (cfg : Config) (s : OcoState)
    (h : ¬(cfg.stopPrice.isSome = true ∧ cfg.targetPrice.isSome = true)) :
    (∀ orderId ty, sellComplete cfg s false orderId ty = (s, [Action.exitProcess 0])) ∧
    (∀ (cfg' : Config) (s' : OcoState) (err : Bool) (orderId : Nat) (ty : SellType),
      ((sellComplete cfg' s' err orderId ty).1.stopOrderId ≠ s'.stopOrderId ∨
       (sellComplete cfg' s' err orderId ty).1.targetOrderId ≠ s'.targetOrderId) →
      cfg'.stopPrice.isSome = true ∧ cfg'.targetPrice.isSome = true) := by
  constructor
  · intro orderId ty
    have hb : (cfg.stopPrice.isSome && cfg.targetPrice.isSome) = false := by
      cases hs : cfg.stopPrice.isSome <;> cases ht : cfg.targetPrice.isSome <;> simp_all
    simp [sellComplete, hb]
  · intro cfg' s' err orderId ty hchange
    by_cases hboth : (cfg'.stopPrice.isSome && cfg'.targetPrice.isSome) = true
    · simpa using hboth
    · exfalso
      have hb : (cfg'.stopPrice.isSome && cfg'.targetPrice.isSome) = false := by
        simpa using hboth
      rcases err with _ | _
      · simp [sellComplete, hb] at hchange
      · simp [sellComplete] at hchange

/-- Witness for C9: with only a stop price configured, a successful
STOP_LOSS_LIMIT placement response exits at once and records nothing. -/
theorem single_leg_sell_exit_witness :
    sellComplete ⟨5, none, none, some 1, none, none, none, false⟩
      ⟨0, 0, 0, 5, 5, false, false, false⟩ false 9 SellType.stopLossLimit =
      (⟨0, 0, 0, 5, 5, false, false, false⟩, [Action.exitProcess 0]) :=
  (single_leg_sell_exit ⟨5, none, none, some 1, none, none, none, false⟩
    ⟨0, 0, 0, 5, 5, false, false, false⟩ (by simp)).1 9 SellType.stopLossLimit

/-- C8: for a status event routed to a tracked order id, NEW and
PARTIALLY_FILLED cause no state change and no action; CANCELED, REJECTED
and EXPIRED are fatal (exit 1, halting all processing); and only the
FILLED status classifies as a fill, invoking the owning role's handler. -/
theorem order_status_routing (cfg : Config) (s : OcoState) (evt : ExecReport)
    (hroute : evt.orderId = s.buyOrderId ∨ evt.orderId = s.stopOrderId ∨
      evt.orderId = s.targetOrderId) :
    ((evt.status = OrderStatus.NEW ∨ evt.status = OrderStatus.PARTIALLY_FILLED) →
      userDataStep cfg s evt = (s, [])) ∧
    ((evt.status = OrderStatus.CANCELED ∨ evt.status = OrderStatus.REJECTED ∨
      evt.status = OrderStatus.EXPIRED) →
      userDataStep cfg s evt = (s, [Action.exitProcess 1])) ∧
    (∀ st : OrderStatus, statusClass st = StatusClass.filled ↔ st = OrderStatus.FILLED) := by
  refine ⟨fun h => ?_, fun h => ?_, fun st => by cases st <;> simp [statusClass]⟩
  · have hsc : statusClass evt.status = StatusClass.ignore := by
      rcases h with h | h <;> rw [h] <;> rfl
    unfold userDataStep
    split_ifs <;> simp [hsc]
  · have hsc : statusClass evt.status = StatusClass.fatal := by
      rcases h with h | h | h <;> rw [h] <;> rfl
    unfold userDataStep
    split_ifs with h1 h2 h3
    · simp [hsc]
    · simp [hsc]
    · simp [hsc]
    · exact absurd hroute (by tauto)

/-- Witness for C8: a REJECTED report on the tracked stop order is fatal. -/
theorem order_status_routing_witness :
    userDataStep ⟨5, none, none, some 1, none, some 3, none, false⟩
      ⟨0, 7, 0, 5, 5, false, false, false⟩ ⟨7, OrderStatus.REJECTED, "BNB"⟩ =
      (⟨0, 7, 0, 5, 5, false, false, false⟩, [Action.exitProcess 1]) :=
  (order_status_routing ⟨5, none, none, some 1, none, some 3, none, false⟩
    ⟨0, 7, 0, 5, 5, false, false, false⟩ ⟨7, OrderStatus.REJECTED, "BNB"⟩
    (Or.inr (Or.inl rfl))).2.1 (Or.inr (Or.inl rfl))

/-- After a tick handler issues any action, that action is a single cancel
and the only state change is setting `isCancelling`. -/
lemma tickStep_emit_shape (cfg : Config) (s : OcoState) (p : ℚ) (a : Action)
    (ha : a ∈ (tickStep cfg s p).2) :
    tickStep cfg s p = ({ s with isCancelling := true }, [a]) := by
  unfold tickStep at ha ⊢
  repeat' split at ha
  all_goals simp_all

/-- Overwriting `isCancelling` with its current value is the identity. -/
lemma set_isCancelling_self (s : OcoState) (h : s.isCancelling = false) :
    { s with isCancelling := false } = s := by
  cases s
  simp_all

/-- C3: while the entry order is outstanding with a cancel price set and no
cancel in flight, a tick issues a cancel of the entry order exactly when
(isStopEntry and price ≤ cancelPrice) or (isLimitEntry and
price ≥ cancelPrice); otherwise the tick does nothing. -/
theorem prefill_cancel_trigger (cfg : Config) (s : OcoState) (p c : ℚ)
    (hbuy : s.buyOrderId ≠ 0) (hc : cfg.cancelPrice = some c)
    (hnc : s.isCancelling = false) :
    ((tickStep cfg s p).2 = [Action.cancelOrder s.buyOrderId Role.entry] ↔
      ((s.isStopEntry = true ∧ p ≤ c) ∨ (s.isLimitEntry = true ∧ c ≤ p))) ∧
    (¬((s.isStopEntry = true ∧ p ≤ c) ∨ (s.isLimitEntry = true ∧ c ≤ p)) →
      tickStep cfg s p = (s, [])) := by
  have h1 : tickStep cfg s p =
      (if ((s.isStopEntry && decide (p ≤ c)) || (s.isLimitEntry && decide (c ≤ p)))
          && !s.isCancelling then
        ({ s with isCancelling := true }, [Action.cancelOrder s.buyOrderId Role.entry])
      else (s, [])) := by
    unfold tickStep
    rw [if_pos hbuy, hc]
  rw [h1]
  by_cases hcond : (s.isStopEntry = true ∧ p ≤ c) ∨ (s.isLimitEntry = true ∧ c ≤ p)
  · have hb : (((s.isStopEntry && decide (p ≤ c)) || (s.isLimitEntry && decide (c ≤ p)))
        && !s.isCancelling) = true := by
      rw [hnc]
      simp only [Bool.not_false, Bool.and_true, Bool.or_eq_true, Bool.and_eq_true,
        decide_eq_true_eq]
      exact hcond
    rw [if_pos hb]
    exact ⟨by simp [hcond], fun hn => absurd hcond hn⟩
  · have hb : ¬((((s.isStopEntry && decide (p ≤ c)) || (s.isLimitEntry && decide (c ≤ p)))
        && !s.isCancelling) = true) := by
      rw [hnc]
      simp only [Bool.not_false, Bool.and_true, Bool.or_eq_true, Bool.and_eq_true,
        decide_eq_true_eq]
      exact hcond
    rw [if_neg hb]
    exact ⟨by simp [hcond], fun _ => rfl⟩

/-- Witness for C3: a stop-entry with the tick exactly at the cancel price
issues the entry cancel. -/
theorem prefill_cancel_trigger_witness :
    (tickStep ⟨5, some 4, none, none, none, none, some 2, false⟩
      ⟨4, 0, 0, 5, 5, false, true, false⟩ 2).2 = [Action.cancelOrder 4 Role.entry] :=
  (prefill_cancel_trigger ⟨5, some 4, none, none, none, none, some 2, false⟩
    ⟨4, 0, 0, 5, 5, false, true, false⟩ 2 2 (by decide) rfl rfl).1.mpr
    (Or.inl ⟨rfl, le_refl 2⟩)

/-- C1 counterexample: with BOTH sell legs outstanding (stopOrderId = 5 and
targetOrderId = 6), no cancel in flight, and a tick at the target price 3
(so price ≥ targetPrice), the trades handler issues no cancellation at all
and leaves the state unchanged, contrary to the claim that such a tick
triggers cancellation of the stop order. -/
theorem mutual_cancel_both_outstanding_counterexample :
    ((⟨0, 5, 6, 2, 1, false, false, false⟩ : OcoState).stopOrderId ≠ 0) ∧
    ((⟨0, 5, 6, 2, 1, false, false, false⟩ : OcoState).targetOrderId ≠ 0) ∧
    ((⟨0, 5, 6, 2, 1, false, false, false⟩ : OcoState).isCancelling = false) ∧
    ((⟨10, none, none, some 1, none, some 3, none, false⟩ : Config).targetPrice = some 3) ∧
    ((3 : ℚ) ≤ 3) ∧
    tickStep ⟨10, none, none, some 1, none, some 3, none, false⟩
      ⟨0, 5, 6, 2, 1, false, false, false⟩ 3 =
      (⟨0, 5, 6, 2, 1, false, false, false⟩, []) := by
  decide

/-- C1 amended: the post-fill triggers fire only while EXACTLY ONE sell leg
is outstanding: with only the stop order outstanding, a tick with
price ≥ targetPrice cancels the stop; with only the target order
outstanding, a tick with price ≤ stopPrice cancels the target; a tick
strictly between the two prices triggers neither; while both legs are
outstanding neither direction fires; and at most one action is issued per
tick. -/
theorem mutual_cancel_single_leg (cfg : Config) (s : OcoState) (p sp tp : ℚ)
    (hbuy : s.buyOrderId = 0) (hnc : s.isCancelling = false)
    (hsp : cfg.stopPrice = some sp) (htp : cfg.targetPrice = some tp) :
    (s.stopOrderId ≠ 0 → s.targetOrderId = 0 → tp ≤ p →
      tickStep cfg s p =
        ({ s with isCancelling := true }, [Action.cancelOrder s.stopOrderId Role.stop])) ∧
    (s.targetOrderId ≠ 0 → s.stopOrderId = 0 → p ≤ sp →
      tickStep cfg s p =
        ({ s with isCancelling := true }, [Action.cancelOrder s.targetOrderId Role.target])) ∧
    (sp < p → p < tp → tickStep cfg s p = (s, [])) ∧
    (s.stopOrderId ≠ 0 → s.targetOrderId ≠ 0 → tickStep cfg s p = (s, [])) ∧
    (tickStep cfg s p).2.length ≤ 1 := by
  refine ⟨fun h1 h2 h3 => ?_, fun h1 h2 h3 => ?_, fun h1 h2 => ?_, fun h1 h2 => ?_, ?_⟩
  · simp [tickStep, hbuy, hnc, hsp, htp, geOpt, leOpt, h1, h2, h3]
  · simp [tickStep, hbuy, hnc, hsp, htp, geOpt, leOpt, h1, h2, h3]
  · have hge : ¬(tp ≤ p) := not_le.mpr h2
    have hle : ¬(p ≤ sp) := not_le.mpr h1
    simp [tickStep, hbuy, hnc, hsp, htp, geOpt, leOpt, hge, hle]
  · simp [tickStep, hbuy, hnc, hsp, htp, geOpt, leOpt, h1, h2]
  · unfold tickStep
    repeat' split
    all_goals simp

/-- Witness for C1 amended: with only the stop order (id 5) outstanding and
a tick at the target price 3, the stop cancel is issued. -/
theorem mutual_cancel_single_leg_witness :
    tickStep ⟨10, none, none, some 1, none, some 3, none, false⟩
      ⟨0, 5, 0, 2, 1, false, false, false⟩ 3 =
      (⟨0, 5, 0, 2, 1, true, false, false⟩, [Action.cancelOrder 5 Role.stop]) :=
  (mutual_cancel_single_leg ⟨10, none, none, some 1, none, some 3, none, false⟩
    ⟨0, 5, 0, 2, 1, false, false, false⟩ 3 1 3 rfl rfl rfl rfl).1
    (by decide) rfl (le_refl 3)

/-- C7: every cancel request is issued with the `isCancelling` guard set in
the resulting state; the error path of a cancel response clears the guard
and changes nothing else and emits nothing (non-fatal); every cancel
response clears the guard; and after a failed cancel the same tick fires
the same trigger again. -/
theorem cancel_guard_protocol (cfg : Config) (s s' : OcoState) (p : ℚ)
    (acts : List Action) (orderId : Nat) (role : Role)
    (hnc : s.isCancelling = false)
    (htick : tickStep cfg s p = (s', acts))
    (hmem : Action.cancelOrder orderId role ∈ acts) :
    s'.isCancelling = true ∧
    (∀ (r : Role) (t : OcoState),
      cancelResponse cfg r true t = ({ t with isCancelling := false }, [])) ∧
    (∀ (r : Role) (e : Bool) (t : OcoState),
      (cancelResponse cfg r e t).1.isCancelling = false) ∧
    tickStep cfg (cancelResponse cfg role true s').1 p = (s', acts) := by
  have hmem' : Action.cancelOrder orderId role ∈ (tickStep cfg s p).2 := by
    rw [htick]
    exact hmem
  have hshape := tickStep_emit_shape cfg s p _ hmem'
  have hs' : s' = { s with isCancelling := true } := by
    rw [htick] at hshape
    exact (Prod.mk.injEq _ _ _ _ ▸ hshape).1
  have herr : ∀ (r : Role) (t : OcoState),
      cancelResponse cfg r true t = ({ t with isCancelling := false }, []) := by
    intro r t
    rfl
  refine ⟨by rw [hs'], herr, fun r e t => ?_, ?_⟩
  · rcases e with _ | _
    · rcases r with _ | _ | _ <;>
        simp [cancelResponse, placeTargetOrder, placeStopOrder] <;> split_ifs <;> rfl
    · rw [herr r t]
  · have hres : (cancelResponse cfg role true s').1 = s := by
      rw [herr role s']
      show { s' with isCancelling := false } = s
      rw [hs']
      exact set_isCancelling_self s hnc
    rw [hres]
    exact htick

/-- Witness for C7: after a failed stop-order cancel the same tick at the
target price issues the identical cancel again. -/
theorem cancel_guard_protocol_witness :
    tickStep ⟨10, none, none, some 1, none, some 3, none, false⟩
      (cancelResponse ⟨10, none, none, some 1, none, some 3, none, false⟩ Role.stop true
        ⟨0, 5, 0, 2, 1, true, false, false⟩).1 3 =
      (⟨0, 5, 0, 2, 1, true, false, false⟩, [Action.cancelOrder 5 Role.stop]) :=
  (cancel_guard_protocol ⟨10, none, none, some 1, none, some 3, none, false⟩
    ⟨0, 5, 0, 2, 1, false, false, false⟩ ⟨0, 5, 0, 2, 1, true, false, false⟩ 3
    [Action.cancelOrder 5 Role.stop] 5 Role.stop rfl (by decide)
    (List.mem_singleton.mpr rfl)).2.2.2

/-- C4 counterexample: with stopSellAmount = 2 and targetSellAmount = 1
(so the split fires, leaving the stop leg at 1), cancelling the target
afterwards does NOT restore the original stopSellAmount: the merge guard
compares the post-split quantities 1 and 1, finds them equal, and does not
add the target amount back, so the round trip ends at 1 instead of 2. -/
theorem scale_out_round_trip_counterexample :
    ((⟨10, none, none, some 1, none, some 3, none, false⟩ : Config).stopPrice.isSome = true) ∧
    ((⟨0, 0, 0, 2, 1, false, false, false⟩ : OcoState).targetSellAmount ≠
      (⟨0, 0, 0, 2, 1, false, false, false⟩ : OcoState).stopSellAmount) ∧
    (cancelResponse ⟨10, none, none, some 1, none, some 3, none, false⟩ Role.target false
      (placeTargetOrder ⟨10, none, none, some 1, none, some 3, none, false⟩
        ⟨0, 0, 0, 2, 1, false, false, false⟩).1).1.stopSellAmount = 1 ∧
    ((1 : ℚ) ≠ (⟨0, 0, 0, 2, 1, false, false, false⟩ : OcoState).stopSellAmount) := by
  refine ⟨rfl, by norm_num, ?_, by norm_num⟩
  norm_num [cancelResponse, placeTargetOrder, placeStopOrder]

/-- C4 amended: the scale-out split conserves the protected quantity (the
two legs sum to the pre-split stopSellAmount, and the stop is re-placed
with the reduced amount); the merge on target cancellation adds
targetSellAmount back whenever the current leg quantities differ; and a
split followed by a merge restores the original stopSellAmount PROVIDED
the post-split leg quantities differ (targetSellAmount ≠ stopSellAmount −
targetSellAmount); when the split leaves the two legs equal the merge
guard does not fire and stopSellAmount stays at its post-split value. -/
theorem scale_out_split_merge (cfg : Config) (s : OcoState)
    (hsp : cfg.stopPrice.isSome = true) (hne : s.targetSellAmount ≠ s.stopSellAmount) :
    ((placeTargetOrder cfg s).1.stopSellAmount + (placeTargetOrder cfg s).1.targetSellAmount
        = s.stopSellAmount) ∧
    ((placeTargetOrder cfg s).2 =
      [Action.placeTarget s.targetSellAmount,
       Action.placeStop (s.stopSellAmount - s.targetSellAmount)]) ∧
    (∀ t : OcoState, t.targetSellAmount ≠ t.stopSellAmount →
      (cancelResponse cfg Role.target false t).1.stopSellAmount =
        t.stopSellAmount + t.targetSellAmount) ∧
    (s.targetSellAmount ≠ s.stopSellAmount - s.targetSellAmount →
      (cancelResponse cfg Role.target false (placeTargetOrder cfg s).1).1.stopSellAmount
        = s.stopSellAmount) := by
  have hsplit : placeTargetOrder cfg s =
      ({ s with stopSellAmount := s.stopSellAmount - s.targetSellAmount },
       [Action.placeTarget s.targetSellAmount,
        Action.placeStop (s.stopSellAmount - s.targetSellAmount)]) := by
    simp [placeTargetOrder, placeStopOrder, hsp, hne]
  have hmerge : ∀ t : OcoState, t.targetSellAmount ≠ t.stopSellAmount →
      (cancelResponse cfg Role.target false t).1.stopSellAmount =
        t.stopSellAmount + t.targetSellAmount := by
    intro t ht
    simp [cancelResponse, placeStopOrder, ht]
  refine ⟨?_, ?_, hmerge, ?_⟩
  · rw [hsplit]
    exact sub_add_cancel _ _
  · rw [hsplit]
  · intro hpost
    rw [hsplit]
    rw [hmerge { s with stopSellAmount := s.stopSellAmount - s.targetSellAmount } hpost]
    exact sub_add_cancel _ _

/-- Witness for C4 amended: stop 3, target 1: the split leaves the stop leg
at 2, and cancelling the target merges 1 back, restoring 3. -/
theorem scale_out_split_merge_witness :
    (cancelResponse ⟨10, none, none, some 1, none, some 3, none, false⟩ Role.target false
      (placeTargetOrder ⟨10, none, none, some 1, none, some 3, none, false⟩
        ⟨0, 0, 0, 3, 1, false, false, false⟩).1).1.stopSellAmount =
      (⟨0, 0, 0, 3, 1, false, false, false⟩ : OcoState).stopSellAmount :=
  (scale_out_split_merge ⟨10, none, none, some 1, none, some 3, none, false⟩
    ⟨0, 0, 0, 3, 1, false, false, false⟩ rfl (by norm_num)).2.2.2 (by norm_num)

/-- C6: whenever `munge_and_check_quantity` succeeds, the returned quantity
is an exact multiple of stepSize, is the input rounded down (it is at most
the input and within one step of it), and is at least minQty; a result
below minQty is never returned (that case fails with a ConformanceError). -/
theorem munge_quantity_correct (rules : LotRules) (volume q : ℚ)
    (hstep : 0 < rules.stepSize)
    (hok : munge_and_check_quantity rules volume = Except.ok q) :
    (∃ k : ℤ, q = rules.stepSize * k) ∧ q ≤ volume ∧ volume < q + rules.stepSize ∧
    rules.minQty ≤ q := by
  simp only [munge_and_check_quantity] at hok
  split_ifs at hok with hlt
  rw [Except.ok.injEq] at hok
  subst hok
  refine ⟨⟨⌊volume / rules.stepSize⌋, rfl⟩, ?_, ?_, not_lt.mp hlt⟩
  · rw [roundStep, mul_comm]
    exact (le_div_iff₀ hstep).mp (Int.floor_le _)
  · have h3 : volume < ((⌊volume / rules.stepSize⌋ : ℚ) + 1) * rules.stepSize :=
      (div_lt_iff₀ hstep).mp (Int.lt_floor_add_one _)
    rw [roundStep]
    ring_nf at h3 ⊢
    linarith

/-- Witness for C6: stepSize 1/2, minQty 1, raw quantity 7.1: the result 7
is a multiple of 1/2, is the input rounded down, and meets the minimum. -/
theorem munge_quantity_correct_witness :
    (∃ k : ℤ, (7 : ℚ) = (1 / 2 : ℚ) * k) ∧ (7 : ℚ) ≤ 71 / 10 ∧
    (71 / 10 : ℚ) < 7 + 1 / 2 ∧ (1 : ℚ) ≤ 7 :=
  munge_quantity_correct ⟨1 / 2, 1⟩ (71 / 10) 7 (by norm_num)
    (by norm_num [munge_and_check_quantity, roundStep])

/-- An event whose execution-report order id is nonzero (real exchange
order ids are nonzero; 0 is the controller's "no order" marker). -/
def eventIdNonzero : Event → Prop
  | Event.execReport orderId _ _ => orderId ≠ 0
  | _ => True

/-- Counting recalculations distributes over action-list concatenation. -/
lemma recalcCount_append (a b : List Action) :
    recalcCount (a ++ b) = recalcCount a + recalcCount b :=
  List.countP_append _ _ _

/-- Sell-side placement never recalculates fees and never touches the
three order ids. -/
lemma placeSellOrder_inv (cfg : Config) (s : OcoState) :
    (placeSellOrder cfg s).1.buyOrderId = s.buyOrderId ∧
    (placeSellOrder cfg s).1.stopOrderId = s.stopOrderId ∧
    (placeSellOrder cfg s).1.targetOrderId = s.targetOrderId ∧
    recalcCount (placeSellOrder cfg s).2 = 0 := by
  unfold placeSellOrder placeTargetOrder placeStopOrder
  repeat' split
  all_goals simp [recalcCount]

/-- The trades handler never recalculates fees and never touches
`buyOrderId`. -/
lemma tickStep_inv (cfg : Config) (s : OcoState) (p : ℚ) :
    (tickStep cfg s p).1.buyOrderId = s.buyOrderId ∧
    recalcCount (tickStep cfg s p).2 = 0 := by
  unfold tickStep
  repeat' split
  all_goals simp [recalcCount]

/-- Cancel-response handlers never recalculate fees and never touch
`buyOrderId`. -/
lemma cancelResponse_inv (cfg : Config) (r : Role) (e : Bool) (s : OcoState) :
    (cancelResponse cfg r e s).1.buyOrderId = s.buyOrderId ∧
    recalcCount (cancelResponse cfg r e s).2 = 0 := by
  simp only [cancelResponse, placeTargetOrder, placeStopOrder]
  repeat' split
  all_goals simp [recalcCount]

/-- Sell-placement responses never recalculate fees and never touch
`buyOrderId`. -/
lemma sellComplete_inv (cfg : Config) (s : OcoState) (err : Bool) (orderId : Nat)
    (ty : SellType) :
    (sellComplete cfg s err orderId ty).1.buyOrderId = s.buyOrderId ∧
    recalcCount (sellComplete cfg s err orderId ty).2 = 0 := by
  unfold sellComplete
  repeat' split
  all_goals simp [recalcCount]

/-- A user-data step either is the entry-fill transition (routed to
`buyOrderId`, emitting exactly one recalculation and zeroing `buyOrderId`
while leaving the sell-leg ids alone) or changes nothing and emits no
recalculation. -/
lemma userDataStep_cases (cfg : Config) (s : OcoState) (evt : ExecReport) :
    (evt.orderId = s.buyOrderId ∧
      recalcCount (userDataStep cfg s evt).2 = 1 ∧
      (userDataStep cfg s evt).1.buyOrderId = 0 ∧
      (userDataStep cfg s evt).1.stopOrderId = s.stopOrderId ∧
      (userDataStep cfg s evt).1.targetOrderId = s.targetOrderId) ∨
    (recalcCount (userDataStep cfg s evt).2 = 0 ∧ (userDataStep cfg s evt).1 = s) := by
  obtain ⟨hb, hst, htg, hrc⟩ := placeSellOrder_inv cfg
    (calculateStopAndTargetAmounts cfg.nonBnbFees evt.commissionAsset
      { s with buyOrderId := 0 })
  unfold userDataStep
  split_ifs with h1 h2 h3
  · rcases hsc : statusClass evt.status with _ | _ | _
    · right
      simp [recalcCount]
    · right
      simp [recalcCount]
    · left
      refine ⟨h1, ?_, ?_, ?_, ?_⟩
      · show recalcCount (Action.recalc evt.commissionAsset ::
          (placeSellOrder cfg (calculateStopAndTargetAmounts cfg.nonBnbFees
            evt.commissionAsset { s with buyOrderId := 0 })).2) = 1
        simp only [recalcCount] at hrc ⊢
        simp [List.countP_cons, hrc]
      · show (placeSellOrder cfg (calculateStopAndTargetAmounts cfg.nonBnbFees
          evt.commissionAsset { s with buyOrderId := 0 })).1.buyOrderId = 0
        rw [hb]
        rfl
      · show (placeSellOrder cfg (calculateStopAndTargetAmounts cfg.nonBnbFees
          evt.commissionAsset { s with buyOrderId := 0 })).1.stopOrderId = s.stopOrderId
        rw [hst]
        rfl
      · show (placeSellOrder cfg (calculateStopAndTargetAmounts cfg.nonBnbFees
          evt.commissionAsset { s with buyOrderId := 0 })).1.targetOrderId = s.targetOrderId
        rw [htg]
        rfl
  · rcases hsc : statusClass evt.status with _ | _ | _ <;> right <;> simp [recalcCount]
  · rcases hsc : statusClass evt.status with _ | _ | _ <;> right <;> simp [recalcCount]
  · right
    simp [recalcCount]

/-- One reactor step either preserves `buyOrderId` and emits no
recalculation, or is the entry-fill execution report: it zeroes
`buyOrderId` and emits exactly one recalculation. -/
lemma step_recalc (cfg : Config) (s : OcoState) (e : Event) :
    (recalcCount (step cfg s e).2 = 0 ∧ (step cfg s e).1.buyOrderId = s.buyOrderId) ∨
    ((step cfg s e).1.buyOrderId = 0 ∧ recalcCount (step cfg s e).2 = 1 ∧
      ∃ st a, e = Event.execReport s.buyOrderId st a) := by
  rcases e with p | ⟨orderId, st, a⟩ | ⟨r, err⟩ | ⟨err, orderId, ty⟩
  · exact Or.inl ⟨(tickStep_inv cfg s p).2, (tickStep_inv cfg s p).1⟩
  · rcases userDataStep_cases cfg s ⟨orderId, st, a⟩ with ⟨h1, h2, h3, _, _⟩ | ⟨h1, h2⟩
    · exact Or.inr ⟨h3, h2, st, a, by rw [show orderId = s.buyOrderId from h1]⟩
    · exact Or.inl ⟨h1, by rw [show (step cfg s (Event.execReport orderId st a)).1 = s from h2]⟩
  · exact Or.inl ⟨(cancelResponse_inv cfg r err s).2, (cancelResponse_inv cfg r err s).1⟩
  · exact Or.inl ⟨(sellComplete_inv cfg s err orderId ty).2,
      (sellComplete_inv cfg s err orderId ty).1⟩

/-- Once `buyOrderId` is zero, a run over events whose execution reports
all carry nonzero order ids emits no recalculation and keeps `buyOrderId`
zero. -/
lemma run_no_recalc (cfg : Config) (evts : List Event) :
    ∀ s : OcoState, s.buyOrderId = 0 → (∀ e ∈ evts, eventIdNonzero e) →
      recalcCount (run cfg s evts).2 = 0 ∧ (run cfg s evts).1.buyOrderId = 0 := by
  induction evts with
  | nil =>
    intro s h0 _
    simp [run, recalcCount, h0]
  | cons e rest ih =>
    intro s h0 hnz
    rcases step_recalc cfg s e with ⟨hc, hb⟩ | ⟨hb, hc, st, a, he⟩
    · have hrest := ih (step cfg s e).1 (by rw [hb, h0])
        (fun e' he' => hnz e' (List.mem_cons_of_mem _ he'))
      simp only [run, recalcCount_append]
      exact ⟨by rw [hc, hrest.1], hrest.2⟩
    · exfalso
      have := hnz e (List.mem_cons_self _ _)
      rw [he] at this
      exact this h0

/-- Over any event sequence with nonzero execution-report ids, the fee
recalculation runs at most once. -/
lemma run_recalc_le_one (cfg : Config) (evts : List Event) :
    ∀ s : OcoState, (∀ e ∈ evts, eventIdNonzero e) →
      recalcCount (run cfg s evts).2 ≤ 1 := by
  induction evts with
  | nil =>
    intro s _
    simp [run, recalcCount]
  | cons e rest ih =>
    intro s hnz
    have htail : ∀ e' ∈ rest, eventIdNonzero e' :=
      fun e' he' => hnz e' (List.mem_cons_of_mem _ he')
    rcases step_recalc cfg s e with ⟨hc, _⟩ | ⟨hb, hc, _, _, _⟩
    · simp only [run, recalcCount_append, hc, Nat.zero_add]
      exact ih (step cfg s e).1 htail
    · have hrest := run_no_recalc cfg rest (step cfg s e).1 hb htail
      simp only [run, recalcCount_append, hc, hrest.1]
      omega

/-- C2: over any delivered event sequence whose execution reports carry
nonzero order ids, the fee recalculation runs at most once; in particular,
two FILLED reports carrying the same entry order id cause exactly one
recalculation, because `buyOrderId` is zeroed before the recalculation
runs; and the later rebalancing paths between the stop and target
quantities (the cancel-response handlers) never re-apply the fee factor. -/
theorem fee_recalc_once (cfg : Config) :
    (∀ (s : OcoState) (evts : List Event), (∀ e ∈ evts, eventIdNonzero e) →
      recalcCount (run cfg s evts).2 ≤ 1) ∧
    (∀ (s : OcoState) (asset : String), s.buyOrderId ≠ 0 →
      s.buyOrderId ≠ s.stopOrderId → s.buyOrderId ≠ s.targetOrderId →
      recalcCount (run cfg s
        [Event.execReport s.buyOrderId OrderStatus.FILLED asset,
         Event.execReport s.buyOrderId OrderStatus.FILLED asset]).2 = 1) ∧
    (∀ (r : Role) (e : Bool) (t : OcoState),
      recalcCount (cancelResponse cfg r e t).2 = 0) := by
  refine ⟨fun s evts h => run_recalc_le_one cfg evts s h, ?_,
    fun r e t => (cancelResponse_inv cfg r e t).2⟩
  intro s asset hnz hnst hntg
  obtain ⟨hb, hst, htg, hrc⟩ := placeSellOrder_inv cfg
    (calculateStopAndTargetAmounts cfg.nonBnbFees asset { s with buyOrderId := 0 })
  have h1 : userDataStep cfg s ⟨s.buyOrderId, OrderStatus.FILLED, asset⟩ =
      ((placeSellOrder cfg (calculateStopAndTargetAmounts cfg.nonBnbFees asset
          { s with buyOrderId := 0 })).1,
       Action.recalc asset ::
        (placeSellOrder cfg (calculateStopAndTargetAmounts cfg.nonBnbFees asset
          { s with buyOrderId := 0 })).2) := by
    unfold userDataStep
    rw [if_pos rfl]
    rfl
  set q := placeSellOrder cfg
    (calculateStopAndTargetAmounts cfg.nonBnbFees asset { s with buyOrderId := 0 }) with hq
  have hb0 : q.1.buyOrderId = 0 := hb.trans rfl
  have hst0 : q.1.stopOrderId = s.stopOrderId := hst.trans rfl
  have htg0 : q.1.targetOrderId = s.targetOrderId := htg.trans rfl
  have hn1 : ¬((⟨s.buyOrderId, OrderStatus.FILLED, asset⟩ : ExecReport).orderId
      = q.1.buyOrderId) := by
    rw [hb0]
    exact hnz
  have hn2 : ¬((⟨s.buyOrderId, OrderStatus.FILLED, asset⟩ : ExecReport).orderId
      = q.1.stopOrderId) := by
    rw [hst0]
    exact hnst
  have hn3 : ¬((⟨s.buyOrderId, OrderStatus.FILLED, asset⟩ : ExecReport).orderId
      = q.1.targetOrderId) := by
    rw [htg0]
    exact hntg
  have h2 : userDataStep cfg q.1 ⟨s.buyOrderId, OrderStatus.FILLED, asset⟩ = (q.1, []) := by
    unfold userDataStep
    rw [if_neg hn1, if_neg hn2, if_neg hn3]
  simp only [run, step, h1, h2]
  simp only [recalcCount_append]
  simp only [recalcCount] at hrc ⊢
  simp [List.countP_cons, hrc]

/-- Witness for C2: entry order id 7 outstanding, two FILLED reports for
id 7, exactly one recalculation emitted. -/
theorem fee_recalc_once_witness :
    recalcCount (run ⟨10, none, none, some 1, none, some 3, none, false⟩
      ⟨7, 0, 0, 10, 10, false, false, false⟩
      [Event.execReport 7 OrderStatus.FILLED "BNB",
       Event.execReport 7 OrderStatus.FILLED "BNB"]).2 = 1 :=
  (fee_recalc_once ⟨10, none, none, some 1, none, some 3, none, false⟩).2.1
    ⟨7, 0, 0, 10, 10, false, false, false⟩ "BNB" (by decide) (by decide) (by decide)

end Theorems

end BinanceOco
